import Mathlib

/-!
# Legend-Cut hair-compositing pipeline: a shallow embedding

This file embeds the per-frame hair-compositing pipeline of the Legend-Cut
repository (`app/utils/face_utils.py` and `app/utils/hair_overlay.py`) into
Lean 4 and proves the spec's testable properties about it.

Modelling conventions:
* Python/numpy floating point arithmetic is idealised as exact rational
  arithmetic (`ℚ`); decimal literals such as `1.8`, `0.4`, `0.299` become the
  exact rationals `9/5`, `2/5`, `299/1000`.
* Python `int(...)` truncates toward zero: `pyInt` below.
* `numpy.uint8` casts truncate toward zero and wrap modulo 256: `u8q` below.
* numpy arrays are mutable objects; aliasing matters for several properties
  (`frame.copy()`, cache copies).  We therefore model arrays as references
  into an explicit heap (`Heap`), with allocation and in-place writes, and
  embed the stateful functions in state-passing style.
* External black boxes (the MediaPipe detector, `cv2.solvePnP`, the pixel
  content produced by `cv2.resize` / `cv2.warpAffine` / Gaussian blurs, the
  file system, `cv2.imread`) are parameters of the embedding (`Env`): the
  code under verification uses their results but does not define them.
  Everything the repository itself computes is embedded concretely.
-/

/-- Python `int(x)`: truncation toward zero. -/
def pyInt (q : ℚ) : ℤ := if 0 ≤ q then ⌊q⌋ else ⌈q⌉

/-- `np.clip(x, lo, hi)` on scalars. -/
def clipQ (x lo hi : ℚ) : ℚ := min hi (max lo x)

/-- `numpy` cast of a (nonnegative in all our uses) float to `uint8`:
truncate toward zero, wrap modulo 256. -/
def u8q (q : ℚ) : ℚ := ((pyInt q % 256 : ℤ) : ℚ)

/-- Sum of `f 0 + f 1 + ... + f (n-1)`, by recursion (kernel-friendly). -/
def rsum (f : ℕ → ℚ) : ℕ → ℚ
  | 0 => 0
  | n + 1 => rsum f n + f n

/-- Sum of `f i j` over `i < rows`, `j < cols`. -/
def rsum2 (f : ℕ → ℕ → ℚ) (rows cols : ℕ) : ℚ :=
  rsum (fun i => rsum (fun j => f i j) cols) rows

/-- A 3-channel (B,G,R) pixel, float values idealised as rationals. -/
structure Px3 where
  b : ℚ
  g : ℚ
  r : ℚ
deriving DecidableEq

/-- A 4-channel (B,G,R,A) pixel. -/
structure Px4 where
  b : ℚ
  g : ℚ
  r : ℚ
  a : ℚ
deriving DecidableEq

/-- A 3-channel image (a BGR frame): shape plus per-pixel content,
`pix row col`. -/
structure Img3 where
  h : ℕ
  w : ℕ
  pix : ℕ → ℕ → Px3

/-- A 4-channel image (a BGRA haircut asset). -/
structure Img4 where
  h : ℕ
  w : ℕ
  pix : ℕ → ℕ → Px4

/-- `arr.mean()` over a 3-channel region of shape `rows × cols`
(numpy averages over every scalar element, hence the `3 *`). -/
def mean3 (f : ℕ → ℕ → Px3) (rows cols : ℕ) : ℚ :=
  rsum2 (fun i j => (f i j).b + (f i j).g + (f i j).r) rows cols
    / (3 * rows * cols)

/-- BGR→gray (`cv2.COLOR_BGR2GRAY`) luma of one pixel, exact coefficients. -/
def lumaPx (p : Px3) : ℚ := 299/1000 * p.r + 587/1000 * p.g + 114/1000 * p.b

/-- Mean luma of a region: `cv2.cvtColor(..., COLOR_BGR2GRAY).mean()`
(uint8 rounding of the gray image idealised away, as all float arithmetic). -/
def meanLuma (f : ℕ → ℕ → Px3) (rows cols : ℕ) : ℚ :=
  rsum2 (fun i j => lumaPx (f i j)) rows cols / (rows * cols)

/-- An axis-aligned region, `{x, y, width, height, center_x, center_y}`
as produced by `FaceDetector`. -/
structure Region where
  x : ℤ
  y : ℤ
  width : ℤ
  height : ℤ
  centerX : ℤ
  centerY : ℤ
deriving DecidableEq

/-- A MediaPipe landmark set: index ↦ normalized `(x, y)` coordinates.
`none` at an index models the exception raised on a missing landmark
(the surrounding `try/except` then yields `None`). -/
structure Landmarks where
  landmark : ℕ → Option (ℚ × ℚ)

/-- User adjustments dictionary; absent keys are the `dict.get` defaults
used at every access site (`scale`→1.0, `rotation`→0, `x`→0, `y`→0). -/
structure Adjustments where
  scale : ℚ
  rotation : ℚ
  x : ℤ
  y : ℤ
deriving DecidableEq

/-- The empty adjustments dictionary `{}` (all `dict.get` defaults). -/
def Adjustments.empty : Adjustments := ⟨1, 0, 0, 0⟩

/-- The part of a `get_head_pose` result that downstream code consumes:
the `success` flag and `euler_angles["y"]` (the yaw, in degrees). -/
structure HeadPose where
  success : Bool
  yaw : ℚ
deriving DecidableEq

namespace FaceDetector

/-- Landmark indices used by `get_forehead_region` (`face_utils.py`). -/
def LEFT_TEMPLE : ℕ := 234
def RIGHT_TEMPLE : ℕ := 454
def BROW_CENTER : ℕ := 8
def TOP_FOREHEAD : ℕ := 10

/-- `FaceDetector.get_forehead_region(landmarks, image_shape)`.
Returns `none` when a required landmark is missing (exception path). -/
def get_forehead_region (lm : Landmarks) (h w : ℕ) : Option Region :=
  match lm.landmark LEFT_TEMPLE, lm.landmark RIGHT_TEMPLE,
        lm.landmark BROW_CENTER, lm.landmark TOP_FOREHEAD with
  | some leftTemple, some rightTemple, some browCenter, some topForehead =>
    let leftX : ℤ := pyInt (leftTemple.1 * w)
    let rightX : ℤ := pyInt (rightTemple.1 * w)
    let foreheadHeight : ℤ := pyInt (|topForehead.2 - browCenter.2| * h * (9/5))
    let topY : ℤ := max 0 (pyInt (topForehead.2 * h) - foreheadHeight)
    let bottomY : ℤ := pyInt (browCenter.2 * h)
    let width : ℤ := max 10 (rightX - leftX)
    let height : ℤ := max 10 (bottomY - topY)
    some { x := leftX, y := topY, width := width, height := height,
           centerX := leftX + Int.fdiv width 2,
           centerY := topY + Int.fdiv height 2 }
  | _, _, _, _ => none

/-- `FaceDetector.get_hair_region(landmarks, image_shape)`: expand the
forehead region and clamp it to the image. -/
def get_hair_region (lm : Landmarks) (h w : ℕ) : Option Region :=
  match get_forehead_region lm h w with
  | none => none
  | some f =>
    let x0 : ℤ := f.x - pyInt (f.width * (2/5))
    let y0 : ℤ := f.y - pyInt (f.height * (3/5))
    let w0 : ℤ := f.width + pyInt (f.width * (4/5))
    let h0 : ℤ := f.height + pyInt (f.height * (6/5))
    let x1 : ℤ := max 0 x0
    let y1 : ℤ := max 0 y0
    let w1 : ℤ := min (w - x1) w0
    let h1 : ℤ := min (h - y1) h0
    some { x := x1, y := y1, width := w1, height := h1,
           centerX := x1 + Int.fdiv w1 2, centerY := y1 + Int.fdiv h1 2 }

end FaceDetector

/-- A raw image as returned by `cv2.imread(..., IMREAD_UNCHANGED)`:
grayscale, 3-channel BGR, or 4-channel BGRA. -/
inductive RawImage where
  | gray (h w : ℕ) (pix : ℕ → ℕ → ℚ)
  | bgr (h w : ℕ) (pix : ℕ → ℕ → Px3)
  | bgra (h w : ℕ) (pix : ℕ → ℕ → Px4)

/-- The format-normalisation step of `load_haircut`: grayscale is converted
with `cv2.COLOR_GRAY2BGRA`; a 3-channel image gets a fully opaque alpha
channel via `np.dstack`; a 4-channel image is unchanged. -/
def toBGRA : RawImage → Img4
  | .gray h w p => ⟨h, w, fun i j => ⟨p i j, p i j, p i j, 255⟩⟩
  | .bgr h w p => ⟨h, w, fun i j => ⟨(p i j).b, (p i j).g, (p i j).r, 255⟩⟩
  | .bgra h w p => ⟨h, w, p⟩

/-- The external black boxes the pipeline calls into.  The repository's code
consumes their results; it does not define them, so they are parameters of
the embedding:
* `pathExists`: `os.path.exists`;
* `imread`: `cv2.imread(path, IMREAD_UNCHANGED)`;
* `detect`: MediaPipe face-mesh detection on a BGR frame (`detect_face`);
* `headPose`: the `success` flag and yaw angle that `get_head_pose`
  (a `cv2.solvePnP` + `cv2.Rodrigues` computation) produces from a
  landmark set and the frame shape — the only parts downstream code reads;
* `resize`: pixel content produced by `cv2.resize(..., INTER_LANCZOS4)`
  for requested width/height;
* `trig`: degree cosine/sine, the `(cos θ, sin θ)` entries of
  `cv2.getRotationMatrix2D(center, θ, 1.0)`;
* `warpAffine`: pixel content produced by `cv2.warpAffine` for the given
  source, angle and output size;
* `gaussianBlur`: `cv2.GaussianBlur(alpha, (3,3), 0)` on an alpha plane of
  the given shape;
* `gaussianFilter`: `scipy.ndimage.gaussian_filter(alpha, sigma=1)`;
* `scipyAvailable`: whether the scipy import succeeded. -/
structure Env where
  pathExists : String → Bool
  imread : String → Option RawImage
  detect : Img3 → Option Landmarks
  headPose : Landmarks → ℕ → ℕ → HeadPose
  resize : Img4 → ℕ → ℕ → ℕ → ℕ → Px4
  trig : ℚ → ℚ × ℚ
  warpAffine : Img4 → ℚ → ℕ → ℕ → ℕ → ℕ → Px4
  gaussianBlur : ℕ → ℕ → (ℕ → ℕ → ℚ) → ℕ → ℕ → ℚ
  gaussianFilter : ℕ → ℕ → (ℕ → ℕ → ℚ) → ℕ → ℕ → ℚ
  scipyAvailable : Bool

/-- An explicit heap of numpy arrays: references are allocation indices.
Aliasing and in-place mutation of arrays (`frame.copy()`, slice
assignment, cached entries) are modelled by allocation and by writes at a
reference.  3-channel frames and 4-channel assets live in separate stores
of the same heap. -/
structure Heap where
  next : ℕ
  mem3 : ℕ → Img3
  mem4 : ℕ → Img4

/-- Allocate a fresh 3-channel array holding `img` (e.g. `frame.copy()`). -/
def Heap.alloc3 (hp : Heap) (img : Img3) : Heap × ℕ :=
  (⟨hp.next + 1, Function.update hp.mem3 hp.next img, hp.mem4⟩, hp.next)

/-- Allocate a fresh 4-channel array holding `img`. -/
def Heap.alloc4 (hp : Heap) (img : Img4) : Heap × ℕ :=
  (⟨hp.next + 1, hp.mem3, Function.update hp.mem4 hp.next img⟩, hp.next)

/-- In-place write of a 3-channel array (numpy slice assignment). -/
def Heap.write3 (hp : Heap) (r : ℕ) (img : Img3) : Heap :=
  ⟨hp.next, Function.update hp.mem3 r img, hp.mem4⟩

/-- In-place write of a 4-channel array. -/
def Heap.write4 (hp : Heap) (r : ℕ) (img : Img4) : Heap :=
  ⟨hp.next, hp.mem3, Function.update hp.mem4 r img⟩

namespace HairOverlay

/-- The rotation angle computed by `transform_haircut`:
`rotation_angle = 0`; if the pose solve succeeded,
`rotation_angle = np.clip(yaw, -30, 30)`; then
`rotation_angle += adjustments.get("rotation", 0)`. -/
def rotationAngleOf (pose : HeadPose) (adj : Adjustments) : ℚ :=
  (if pose.success then clipQ pose.yaw (-30) 30 else 0) + adj.rotation

/-- `(new_width, new_height)` of the resize step of `transform_haircut`:
`base_scale = max(width_ratio, height_ratio)` (each ratio defaulting to 1.0
on a zero asset dimension), `scale = base_scale * user_scale`, and each
target dimension is `max(10, int(dim * scale))`. -/
def resizedDims (haircut : Img4) (hairRegion : Region) (adj : Adjustments) :
    ℕ × ℕ :=
  let h := haircut.h
  let w := haircut.w
  let baseScaleX : ℚ := if 0 < w then (hairRegion.width : ℚ) / w else 1
  let baseScaleY : ℚ := if 0 < h then (hairRegion.height : ℚ) / h else 1
  let baseScale := max baseScaleX baseScaleY
  let scale := baseScale * adj.scale
  ((max 10 (pyInt (w * scale))).toNat, (max 10 (pyInt (h * scale))).toNat)

/-- The resized haircut (`cv2.resize(haircut, (new_width, new_height),
INTER_LANCZOS4)`): shape from `resizedDims`, pixel content from the
resampling black box. -/
def resizedOf (env : Env) (haircut : Img4) (hairRegion : Region)
    (adj : Adjustments) : Img4 :=
  let d := resizedDims haircut hairRegion adj
  ⟨d.2, d.1, env.resize haircut d.1 d.2⟩

/-- The rotated haircut for the `abs(rotation_angle) > 1` branch:
`cos`/`sin` are the absolute values of the rotation-matrix entries, and the
expanded canvas is `new_w = int(h*sin + w*cos)`, `new_h = int(h*cos + w*sin)`;
pixel content comes from the `cv2.warpAffine` black box. -/
def rotatedOf (env : Env) (resized : Img4) (angle : ℚ) : Img4 :=
  let c := |(env.trig angle).1|
  let s := |(env.trig angle).2|
  let newW := (pyInt ((resized.h : ℚ) * s + (resized.w : ℚ) * c)).toNat
  let newH := (pyInt ((resized.h : ℚ) * c + (resized.w : ℚ) * s)).toNat
  ⟨newH, newW, env.warpAffine resized angle newW newH⟩

/-- `HairOverlay.transform_haircut(haircut, head_pose, hair_region,
adjustments)`: resize to the covering scale, then rotate (with canvas
expansion) only when `abs(rotation_angle) > 1`. -/
def transform_haircut (env : Env) (haircut : Img4) (pose : HeadPose)
    (hairRegion : Region) (adj : Adjustments) : Img4 :=
  let angle := rotationAngleOf pose adj
  let resized := resizedOf env haircut hairRegion adj
  if 1 < |angle| then rotatedOf env resized angle else resized

/-- The slice geometry computed at the top of `overlay_haircut`:
`x = hair_region.x + adjustments.x`, `y = hair_region.y + adjustments.y`,
overlay boundaries `x1,y1,x2,y2` on the frame and `hx1,hy1,hx2,hy2` on the
haircut bitmap. -/
structure OverlayGeom where
  x1 : ℤ
  y1 : ℤ
  x2 : ℤ
  y2 : ℤ
  hx1 : ℤ
  hy1 : ℤ
  hx2 : ℤ
  hy2 : ℤ

/-- The `overlay_haircut` boundary computation. -/
def overlayGeom (frameH frameW : ℕ) (haircut : Img4) (hairRegion : Region)
    (adj : Adjustments) : OverlayGeom :=
  let x := hairRegion.x + adj.x
  let y := hairRegion.y + adj.y
  { x1 := max 0 x, y1 := max 0 y,
    x2 := min (frameW : ℤ) (x + haircut.w),
    y2 := min (frameH : ℤ) (y + haircut.h),
    hx1 := max 0 (-x), hy1 := max 0 (-y),
    hx2 := min (haircut.w : ℤ) ((frameW : ℤ) - x),
    hy2 := min (haircut.h : ℤ) ((frameH : ℤ) - y) }

/-- Number of rows of the haircut slice (`hy2 - hy1`). -/
def sliceRows (g : OverlayGeom) : ℕ := (g.hy2 - g.hy1).toNat

/-- Number of columns of the haircut slice (`hx2 - hx1`). -/
def sliceCols (g : OverlayGeom) : ℕ := (g.hx2 - g.hx1).toNat

/-- The normalised alpha of the haircut slice
(`haircut_slice[:,:,3] / 255.0`), edge-feathered with
`scipy.ndimage.gaussian_filter(alpha, sigma=1)` when scipy is available. -/
def overlayAlpha (env : Env) (haircut : Img4) (g : OverlayGeom) :
    ℕ → ℕ → ℚ :=
  let alpha0 : ℕ → ℕ → ℚ := fun i j =>
    (haircut.pix (g.hy1.toNat + i) (g.hx1.toNat + j)).a / 255
  if env.scipyAvailable then
    env.gaussianFilter (sliceRows g) (sliceCols g) alpha0
  else alpha0

/-- The pre-blend region of interest `result[y1:y2, x1:x2]` (the result is
a copy of the frame at this point, and `.astype(np.float32)` is exact). -/
def overlayRoi (frame : Img3) (g : OverlayGeom) : ℕ → ℕ → Px3 :=
  fun i j => frame.pix (g.y1.toNat + i) (g.x1.toNat + j)

/-- The alpha blend `(rgb * alpha + roi * (1 - alpha)).astype(np.uint8)`
over the overlap slice. -/
def overlayBlended (env : Env) (frame : Img3) (haircut : Img4)
    (g : OverlayGeom) : ℕ → ℕ → Px3 :=
  fun i j =>
    let hpx := haircut.pix (g.hy1.toNat + i) (g.hx1.toNat + j)
    let a := overlayAlpha env haircut g i j
    let bpx := overlayRoi frame g i j
    ⟨u8q (hpx.b * a + bpx.b * (1 - a)),
     u8q (hpx.g * a + bpx.g * (1 - a)),
     u8q (hpx.r * a + bpx.r * (1 - a))⟩

/-- numpy slice assignment `img[y0:y0+rows, x0:x0+cols] = f`. -/
def writeRegion3 (img : Img3) (y0 x0 rows cols : ℕ) (f : ℕ → ℕ → Px3) :
    Img3 :=
  ⟨img.h, img.w, fun i j =>
    if y0 ≤ i ∧ i < y0 + rows ∧ x0 ≤ j ∧ j < x0 + cols then
      f (i - y0) (j - x0)
    else img.pix i j⟩

/-- `.astype(np.uint8)` applied channel-wise to a 3-channel pixel. -/
def u8Px3 (p : Px3) : Px3 := ⟨u8q p.b, u8q p.g, u8q p.r⟩

/-- One pixel of the color-match output:
`np.clip(blended * ratio * 0.7 + blended * 0.3, 0, 255).astype(np.uint8)`. -/
def colorAdjust (ratio : ℚ) (p : Px3) : Px3 :=
  ⟨u8q (clipQ (p.b * ratio * (7/10) + p.b * (3/10)) 0 255),
   u8q (clipQ (p.g * ratio * (7/10) + p.g * (3/10)) 0 255),
   u8q (clipQ (p.r * ratio * (7/10) + p.r * (3/10)) 0 255)⟩

/-- `HairOverlay.color_match_hair(frame, original_roi, blended_roi, y1, y2,
x1, x2)`: `frame` is a reference that is mutated in place; the region
shape `(rows, cols)` stands for `(y2-y1, x2-x1)`.  When the original
region's mean and the blended region's mean luma are both positive, the
region is rescaled by the luma ratio (70% adjusted, 30% original). -/
def color_match_hair (hp : Heap) (frameRef : ℕ)
    (originalRoi blendedRoi : ℕ → ℕ → Px3) (rows cols y0 x0 : ℕ) : Heap :=
  if 0 < mean3 originalRoi rows cols then
    let originalLum := meanLuma (fun i j => u8Px3 (originalRoi i j)) rows cols
    let blendedLum := meanLuma blendedRoi rows cols
    if 0 < blendedLum then
      let ratio := originalLum / blendedLum
      hp.write3 frameRef
        (writeRegion3 (hp.mem3 frameRef) y0 x0 rows cols
          (fun i j => colorAdjust ratio (blendedRoi i j)))
    else hp
  else hp

/-- `HairOverlay.overlay_haircut(frame, haircut, hair_region, adjustments)`:
copy the frame, compute the overlap slice, alpha-blend the haircut slice
into the copy, then color-match when the pre-blend region has positive
mean.  Returns the heap and the reference of the result array.  (The
haircut bitmap always has 4 channels here, so the
`haircut_slice.shape[2] == 4` test of the source is always true.  The
frame-side slice `result[y1:y2, x1:x2]` has the same shape as the
haircut-side slice — `y2 − y1 = hy2 − hy1` and `x2 − x1 = hx2 − hx1`, see
`overlayGeom_shape_eq` — so `sliceRows`/`sliceCols` describe both.) -/
def overlay_haircut (env : Env) (hp : Heap) (frameRef : ℕ) (haircut : Img4)
    (hairRegion : Region) (adj : Adjustments) : Heap × ℕ :=
  let frame := hp.mem3 frameRef
  let al := hp.alloc3 frame
  let hp1 := al.1
  let resRef := al.2
  let g := overlayGeom frame.h frame.w haircut hairRegion adj
  if g.hx1 < g.hx2 ∧ g.hy1 < g.hy2 then
    let rows := sliceRows g
    let cols := sliceCols g
    let roi := overlayRoi frame g
    let blended := overlayBlended env frame haircut g
    let hp2 := hp1.write3 resRef
      (writeRegion3 (hp1.mem3 resRef) g.y1.toNat g.x1.toNat rows cols blended)
    if 0 < mean3 roi rows cols then
      (color_match_hair hp2 resRef roi blended rows cols g.y1.toNat
        g.x1.toNat, resRef)
    else (hp2, resRef)
  else (hp1, resRef)

end HairOverlay

/-- `os.path.basename`: the part after the last `/`. -/
def pyBasename (s : String) : String := ((s.splitOn ("/")).reverse).headD ""

/-- The cache key of `load_haircut`:
`f"{gender}_{os.path.basename(haircut_path)}"`. -/
def cacheKey (gender path : String) : String :=
  gender ++ "_" ++ pyBasename path

/-- The mutable state of a `HairOverlay` object that the claims concern:
the heap of live arrays and `self.haircut_cache` (a dict from cache key to
the cached array).  Entries are only ever inserted non-`None`, so the
cache maps keys to references. -/
structure PState where
  heap : Heap
  cache : String → Option ℕ

/-- `HairOverlay.preprocess_haircut(haircut)`: blur the alpha channel with
`cv2.GaussianBlur(alpha, (3,3), 0)` and write it back in place (the image
has 4 channels by construction, so the channel test of the source is
true). -/
def preprocess_haircut (env : Env) (img : Img4) : Img4 :=
  let alpha := env.gaussianBlur img.h img.w (fun i j => (img.pix i j).a)
  ⟨img.h, img.w, fun i j =>
    ⟨(img.pix i j).b, (img.pix i j).g, (img.pix i j).r, alpha i j⟩⟩

/-- `HairOverlay.load_haircut(haircut_path, gender)`: return `none` when
the file is absent or fails to decode; on a cache hit return a copy of the
cached array; on a miss load, normalise to BGRA, preprocess, cache a copy
and return the loaded array. -/
def load_haircut (env : Env) (st : PState) (path gender : String) :
    PState × Option ℕ :=
  if env.pathExists path then
    let key := cacheKey gender path
    match st.cache key with
    | some r =>
      let al := st.heap.alloc4 (st.heap.mem4 r)
      (⟨al.1, st.cache⟩, some al.2)
    | none =>
      match env.imread path with
      | none => (st, none)
      | some raw =>
        let img := preprocess_haircut env (toBGRA raw)
        let al := st.heap.alloc4 img
        let al2 := al.1.alloc4 img
        (⟨al2.1, Function.update st.cache key (some al2.2)⟩, some al.2)
  else (st, none)

/-- Observable steps of one `apply_haircut` run, in execution order. -/
inductive Event where
  | pathCheck (p : String)
  | loadAsset (p : String)
  | detectFace
  | headPoseEv
  | hairRegionEv
  | transformEv
  | overlayEv
deriving DecidableEq

/-- The asset-path resolution at the top of `apply_haircut`: declared
category, then the `custom` category, then the basename inside `custom`;
`none` when all three are absent. -/
def resolvePath (env : Env) (haircutName gender : String) : Option String :=
  let p1 := "app/static/haircuts/" ++ gender ++ "/" ++ haircutName
  let pA := if env.pathExists p1 then p1
            else "app/static/haircuts/custom/" ++ haircutName
  if env.pathExists pA then some pA
  else
    let alt := "app/static/haircuts/custom/" ++ pyBasename haircutName
    if env.pathExists alt then some alt else none

/-- The `os.path.exists` probes performed by the resolution, in order. -/
def resolveTrace (env : Env) (haircutName gender : String) : List Event :=
  let p1 := "app/static/haircuts/" ++ gender ++ "/" ++ haircutName
  let pA := if env.pathExists p1 then p1
            else "app/static/haircuts/custom/" ++ haircutName
  if env.pathExists pA then [Event.pathCheck p1, Event.pathCheck pA]
  else
    let alt := "app/static/haircuts/custom/" ++ pyBasename haircutName
    [Event.pathCheck p1, Event.pathCheck pA, Event.pathCheck alt]

/-- The session-adjustments lookup of `apply_haircut`: the empty dict
unless `session_id` is truthy (non-`None`, non-empty) and present in
`self.session_settings`. -/
def sessionAdjustments (sessions : String → Option Adjustments)
    (sessionId : Option String) : Adjustments :=
  match sessionId with
  | none => Adjustments.empty
  | some sid =>
    if sid = "" then Adjustments.empty
    else
      match sessions sid with
      | none => Adjustments.empty
      | some a => a

/-- The rest of `apply_haircut` after a successful path resolution: load
the asset, detect the face, compute head pose and hair region, transform
and composite. -/
def apply_rest (env : Env) (st : PState)
    (sessions : String → Option Adjustments) (frameRef : ℕ)
    (gender : String) (sessionId : Option String) (path : String)
    (t : List Event) : PState × ℕ × Bool × List Event :=
  let ld := load_haircut env st path gender
  let t1 := t ++ [Event.loadAsset path]
  match ld.2 with
  | none => (ld.1, frameRef, false, t1)
  | some haircutRef =>
    let st1 := ld.1
    let frame := st1.heap.mem3 frameRef
    let t2 := t1 ++ [Event.detectFace]
    match env.detect frame with
    | none => (st1, frameRef, false, t2)
    | some lm =>
      let pose := env.headPose lm frame.h frame.w
      let t3 := t2 ++ [Event.headPoseEv, Event.hairRegionEv]
      match FaceDetector.get_hair_region lm frame.h frame.w with
      | none => (st1, frameRef, true, t3)
      | some hr =>
        let adj := sessionAdjustments sessions sessionId
        let transformed :=
          HairOverlay.transform_haircut env (st1.heap.mem4 haircutRef) pose
            hr adj
        let t4 := t3 ++ [Event.transformEv, Event.overlayEv]
        let ov :=
          HairOverlay.overlay_haircut env st1.heap frameRef transformed hr adj
        (⟨ov.1, st1.cache⟩, ov.2, true, t4)

/-- `HairOverlay.apply_haircut(frame, haircut_name, gender, session_id)`:
resolve the asset path (returning the frame itself with
`face_detected = False` when no candidate exists), then run the rest of
the pipeline. -/
def apply_haircut (env : Env) (st : PState)
    (sessions : String → Option Adjustments) (frameRef : ℕ)
    (haircutName gender : String) (sessionId : Option String) :
    PState × ℕ × Bool × List Event :=
  match resolvePath env haircutName gender with
  | none => (st, frameRef, false, resolveTrace env haircutName gender)
  | some path =>
    apply_rest env st sessions frameRef gender sessionId path
      (resolveTrace env haircutName gender)

section ConcreteInputs

/-- A benign environment used for concrete evaluations: no files, no faces,
inert resampling black boxes. -/
def envW : Env :=
  { pathExists := fun _ => false
    imread := fun _ => none
    detect := fun _ => none
    headPose := fun _ _ _ => ⟨false, 0⟩
    resize := fun _ _ _ _ _ => ⟨0, 0, 0, 0⟩
    trig := fun _ => (1, 0)
    warpAffine := fun _ _ _ _ _ _ => ⟨0, 0, 0, 0⟩
    gaussianBlur := fun _ _ a => a
    gaussianFilter := fun _ _ a => a
    scipyAvailable := false }

/-- A successful frontal head pose (yaw 0). -/
def poseY0 : HeadPose := ⟨true, 0⟩

/-- The empty adjustments dictionary, spelled out. -/
def adj1 : Adjustments := ⟨1, 0, 0, 0⟩

/-- A 500×500 opaque haircut asset (the spec's end-to-end scenario). -/
def hcW : Img4 := ⟨500, 500, fun _ _ => ⟨10, 20, 30, 255⟩⟩

/-- The spec's end-to-end hair region `{x:200, y:50, width:240, height:120}`. -/
def hrW : Region := ⟨200, 50, 240, 120, 320, 110⟩

/-- A 100×100 haircut asset. -/
def hcCE : Img4 := ⟨100, 100, fun _ _ => ⟨10, 20, 30, 255⟩⟩

/-- A degenerate 4×4 hair region, as produced by `get_hair_region` for a
face whose temples sit at the right image border (see `C1_counterexample`). -/
def hrCE : Region := ⟨0, 0, 4, 4, 2, 2⟩

end ConcreteInputs

/-- A valid landmark set whose temples sit exactly at the right image
border, forcing a degenerate forehead that gets the 10-pixel minimum and a
hair region that is clamped to 4 pixels of width. -/
def lmCE : Landmarks :=
  ⟨fun i =>
    if i = 234 then some (1, 1/2)
    else if i = 454 then some (1, 1/2)
    else if i = 8 then some (1/2, 1/2)
    else if i = 10 then some (1/2, 1/2)
    else none⟩

/-- A valid, well-centred landmark set used as the witness input for C1. -/
def lmW : Landmarks :=
  ⟨fun i =>
    if i = 234 then some (1/4, 1/2)
    else if i = 454 then some (3/4, 1/2)
    else if i = 8 then some (1/2, 1/2)
    else if i = 10 then some (1/2, 1/4)
    else none⟩

/-- A 1×1 BGRA raw asset image. -/
def rawW : RawImage := RawImage.bgra 1 1 (fun _ _ => ⟨1, 2, 3, 4⟩)

/-- An environment in which every path exists and every read decodes to
`rawW`. -/
def envL : Env := { envW with pathExists := fun _ => true,
                              imread := fun _ => some rawW }

/-- A 2×2 uniform gray frame. -/
def frame2 : Img3 := ⟨2, 2, fun _ _ => ⟨100, 100, 100⟩⟩

/-- A 1×1 fully opaque haircut asset. -/
def hc1 : Img4 := ⟨1, 1, fun _ _ => ⟨10, 20, 30, 255⟩⟩

/-- A one-object heap whose reference 0 holds `frame2`. -/
def heapW : Heap := ⟨1, fun _ => frame2, fun _ => hc1⟩

/-- A hair region far off-canvas. -/
def hrOff : Region := ⟨1000, 1000, 50, 50, 1025, 1025⟩

/-- A 1×1 hair region at the origin. -/
def hrZero : Region := ⟨0, 0, 1, 1, 0, 0⟩

/-- The overlap geometry of the C8 witness configuration. -/
def G8 : HairOverlay.OverlayGeom :=
  HairOverlay.overlayGeom (heapW.mem3 0).h (heapW.mem3 0).w hc1 hrZero adj1

/-- The pre-blend region of the C8 witness configuration. -/
def roi8 : ℕ → ℕ → Px3 := HairOverlay.overlayRoi (heapW.mem3 0) G8

/-- The blended region of the C8 witness configuration. -/
def blend8 : ℕ → ℕ → Px3 :=
  HairOverlay.overlayBlended envW (heapW.mem3 0) hc1 G8

/-- The luma ratio of the C8 witness configuration. -/
def ratio8 : ℚ :=
  meanLuma (fun a b => HairOverlay.u8Px3 (roi8 a b))
      (HairOverlay.sliceRows G8) (HairOverlay.sliceCols G8)
    / meanLuma blend8 (HairOverlay.sliceRows G8) (HairOverlay.sliceCols G8)

/-- The empty overlay state: one frame on the heap, empty cache. -/
def stEmpty : PState := ⟨heapW, fun _ => none⟩

/-- A state whose cache maps every key to reference 0. -/
def stHit : PState := ⟨heapW, fun _ => some 0⟩

/-- `self.haircut_cache` after a sequence of `load_haircut` calls,
each given by a `(path, gender)` pair. -/
def runLoads (env : Env) : PState → List (String × String) → PState
  | st, [] => st
  | st, op :: rest => runLoads env (load_haircut env st op.1 op.2).1 rest

/-- The cache invariant of C7: every cached entry is a live array whose
content is `preprocess_haircut` applied (exactly once) to the normalised
raw image of some successfully loaded path. -/
def cacheWF (env : Env) (st : PState) : Prop :=
  ∀ k r, st.cache k = some r →
    r < st.heap.next
    ∧ ∃ path raw, env.pathExists path = true ∧ env.imread path = some raw
        ∧ st.heap.mem4 r = preprocess_haircut env (toBGRA raw)

/-- The declared-category path of the C2 witness. -/
def pathW : String := "app/static/haircuts/" ++ "g" ++ "/" ++ "x"

/-- An environment that finds every file but never a face. -/
def envD : Env := { envL with detect := fun _ => none }

/-- A landmark set with no landmarks at all: `get_hair_region` fails on
it, modelling the null hair region. -/
def lmBad : Landmarks := ⟨fun _ => none⟩

/-- An environment that finds every file and always detects `lmBad`. -/
def envDB : Env := { envL with detect := fun _ => some lmBad }

/-- The frame-side and haircut-side overlap slices always have the same
shape: `x2 - x1 = hx2 - hx1` and `y2 - y1 = hy2 - hy1`, so numpy's
broadcast in `result[y1:y2, x1:x2] = blended` is well-formed. -/
lemma overlayGeom_shape_eq (frameH frameW : ℕ) (haircut : Img4)
    (hairRegion : Region) (adj : Adjustments) :
    (HairOverlay.overlayGeom frameH frameW haircut hairRegion adj).x2
        - (HairOverlay.overlayGeom frameH frameW haircut hairRegion adj).x1
      = (HairOverlay.overlayGeom frameH frameW haircut hairRegion adj).hx2
        - (HairOverlay.overlayGeom frameH frameW haircut hairRegion adj).hx1
    ∧ (HairOverlay.overlayGeom frameH frameW haircut hairRegion adj).y2
        - (HairOverlay.overlayGeom frameH frameW haircut hairRegion adj).y1
      = (HairOverlay.overlayGeom frameH frameW haircut hairRegion adj).hy2
        - (HairOverlay.overlayGeom frameH frameW haircut hairRegion
            adj).hy1 := by
  unfold HairOverlay.overlayGeom
  dsimp only
  omega

lemma pyInt_eq_floor {q : ℚ} (h : 0 ≤ q) : pyInt q = ⌊q⌋ := if_pos h

lemma pyInt_nonneg {q : ℚ} (h : 0 ≤ q) : 0 ≤ pyInt q := by
  rw [pyInt_eq_floor h]
  exact Int.floor_nonneg.mpr h

lemma pyInt_le_natCast {q : ℚ} {n : ℕ} (h0 : 0 ≤ q) (h : q ≤ n) :
    pyInt q ≤ (n : ℤ) := by
  rw [pyInt_eq_floor h0]
  exact (Int.floor_mono h).trans_eq (Int.floor_natCast n)

lemma le_pyInt {c : ℤ} {q : ℚ} (h0 : 0 ≤ q) (h : (c : ℚ) ≤ q) :
    c ≤ pyInt q := by
  rw [pyInt_eq_floor h0]
  exact Int.le_floor.mpr h

/-- A normalized coordinate `c ∈ [0,1]` lands in `[0, n]` after the
pixel conversion `int(c * n)`. -/
lemma pyInt_coord_bounds {c : ℚ} (n : ℕ) (h0 : 0 ≤ c) (h1 : c ≤ 1) :
    0 ≤ pyInt (c * n) ∧ pyInt (c * n) ≤ (n : ℤ) := by
  have hn : (0 : ℚ) ≤ (n : ℚ) := Nat.cast_nonneg n
  have hq0 : 0 ≤ c * n := mul_nonneg h0 hn
  have hq1 : c * (n : ℚ) ≤ (n : ℚ) := by
    calc c * (n : ℚ) ≤ 1 * n := mul_le_mul_of_nonneg_right h1 hn
    _ = n := one_mul _
  exact ⟨pyInt_nonneg hq0, pyInt_le_natCast hq0 hq1⟩

/-- **C4**: the rotation angle used by `transform_haircut` equals
`clip(yaw, −30°, +30°) + adjustments.rotation` when the pose solve
succeeded and `0 + adjustments.rotation` when it did not, and rotation is
skipped — the resized bitmap is returned as-is — exactly when the absolute
value of that angle is ≤ 1°. -/
theorem C4_rotation_angle_and_skip (env : Env) (haircut : Img4)
    (pose : HeadPose) (hairRegion : Region) (adj : Adjustments) :
    HairOverlay.rotationAngleOf pose adj =
      (if pose.success = true then clipQ pose.yaw (-30) 30 else 0)
        + adj.rotation
    ∧ HairOverlay.transform_haircut env haircut pose hairRegion adj =
      (if |HairOverlay.rotationAngleOf pose adj| ≤ 1 then
        HairOverlay.resizedOf env haircut hairRegion adj
      else
        HairOverlay.rotatedOf env
          (HairOverlay.resizedOf env haircut hairRegion adj)
          (HairOverlay.rotationAngleOf pose adj)) := by
  refine ⟨rfl, ?_⟩
  unfold HairOverlay.transform_haircut
  by_cases h : 1 < |HairOverlay.rotationAngleOf pose adj|
  · rw [if_pos h, if_neg (not_le.mpr h)]
  · rw [if_neg h, if_pos (not_lt.mp h)]

/-- **C3 (counterexample)**: with `adjustments = {scale:1, rotation:0}`, a
successful frontal pose, a 100×100 asset and a 4×4 hair region, the claim's
predicted output width `⌊asset.w * base_scale⌋ = 4` differs from the actual
output width `10` (the code floors each target dimension at 10 pixels). -/
theorem C3_counterexample :
    (HairOverlay.transform_haircut envW hcCE poseY0 hrCE adj1).w = 10
    ∧ (HairOverlay.transform_haircut envW hcCE poseY0 hrCE adj1).h = 10
    ∧ (pyInt ((hcCE.w : ℚ) *
        max ((hrCE.width : ℚ) / hcCE.w)
            ((hrCE.height : ℚ) / hcCE.h))).toNat = 4
    ∧ (10 : ℕ) ≠ 4 := by
  have hang : HairOverlay.rotationAngleOf poseY0 adj1 = 0 := by
    norm_num [HairOverlay.rotationAngleOf, poseY0, adj1, clipQ]
  have hskip : HairOverlay.transform_haircut envW hcCE poseY0 hrCE adj1
      = HairOverlay.resizedOf envW hcCE hrCE adj1 := by
    unfold HairOverlay.transform_haircut
    rw [hang]
    norm_num
  have hd : HairOverlay.resizedDims hcCE hrCE adj1 = (10, 10) := by
    unfold HairOverlay.resizedDims
    have h4 : pyInt (4 : ℚ) = 4 := by norm_num [pyInt]
    norm_num [hcCE, hrCE, adj1, h4]
    decide
  have hclaimed : pyInt ((hcCE.w : ℚ) *
      max ((hrCE.width : ℚ) / hcCE.w) ((hrCE.height : ℚ) / hcCE.h)) = 4 := by
    norm_num [hcCE, hrCE, pyInt]
  refine ⟨?_, ?_, by rw [hclaimed]; rfl, by decide⟩ <;>
    rw [hskip] <;> simp [HairOverlay.resizedOf, hd]

/-- **C3 (amended)**: with `adjustments.scale = 1`, `adjustments.rotation
= 0` and a successful head pose of yaw 0, `transform_haircut` returns the
unrotated resize of the asset (no rotation-padding expansion) whose
dimensions are the covering-scale resize of the asset *floored at 10 pixels
per axis*: `(max(10, int(w·base_scale)), max(10, int(h·base_scale)))` with
`base_scale = max(hairRegion.width / w, hairRegion.height / h)`. -/
theorem C3_transform_dims (env : Env) (haircut : Img4) (pose : HeadPose)
    (hairRegion : Region) (adj : Adjustments)
    (hsc : adj.scale = 1) (hrot : adj.rotation = 0)
    (hps : pose.success = true) (hyaw : pose.yaw = 0)
    (hw : 0 < haircut.w) (hh : 0 < haircut.h) :
    HairOverlay.transform_haircut env haircut pose hairRegion adj =
      HairOverlay.resizedOf env haircut hairRegion adj
    ∧ (HairOverlay.transform_haircut env haircut pose hairRegion adj).w =
      (max 10 (pyInt ((haircut.w : ℚ) *
        max ((hairRegion.width : ℚ) / haircut.w)
            ((hairRegion.height : ℚ) / haircut.h)))).toNat
    ∧ (HairOverlay.transform_haircut env haircut pose hairRegion adj).h =
      (max 10 (pyInt ((haircut.h : ℚ) *
        max ((hairRegion.width : ℚ) / haircut.w)
            ((hairRegion.height : ℚ) / haircut.h)))).toNat := by
  have hangle : HairOverlay.rotationAngleOf pose adj = 0 := by
    simp only [HairOverlay.rotationAngleOf, hps, if_pos, hyaw, hrot, clipQ]
    norm_num
  have hskip : HairOverlay.transform_haircut env haircut pose hairRegion adj
      = HairOverlay.resizedOf env haircut hairRegion adj := by
    unfold HairOverlay.transform_haircut
    rw [hangle]
    norm_num
  refine ⟨hskip, ?_, ?_⟩ <;>
    rw [hskip] <;>
    simp only [HairOverlay.resizedOf, HairOverlay.resizedDims, hw, hh,
      if_pos, hsc, mul_one]

/-- Witness for `C3_transform_dims`: the spec's end-to-end scenario — a
500×500 asset and a 240×120 hair region give a 240×240 resized bitmap
(covering scale 0.48). -/
theorem C3_witness :
    (HairOverlay.transform_haircut envW hcW poseY0 hrW adj1).w = 240
    ∧ (HairOverlay.transform_haircut envW hcW poseY0 hrW adj1).h = 240 := by
  have h := C3_transform_dims envW hcW poseY0 hrW adj1 rfl rfl rfl rfl
    (by norm_num [hcW]) (by norm_num [hcW])
  have e1 : pyInt ((hcW.w : ℚ) *
      max ((hrW.width : ℚ) / hcW.w) ((hrW.height : ℚ) / hcW.h)) = 240 := by
    norm_num [hcW, hrW, pyInt]
  have e2 : pyInt ((hcW.h : ℚ) *
      max ((hrW.width : ℚ) / hcW.w) ((hrW.height : ℚ) / hcW.h)) = 240 := by
    norm_num [hcW, hrW, pyInt]
  exact ⟨h.2.1.trans (by rw [e1]; rfl), h.2.2.trans (by rw [e2]; rfl)⟩

/-- **C1 (counterexample)**: a valid landmark set (all coordinates in
`[0,1]`) on a 100×100 frame for which `get_hair_region` returns a region of
width 4 < 10: the 10-pixel minimum is enforced on the forehead region
before expansion, not on the final clamped hair region. -/
theorem C1_counterexample :
    lmCE.landmark 234 = some (1, 1/2)
    ∧ lmCE.landmark 454 = some (1, 1/2)
    ∧ lmCE.landmark 8 = some (1/2, 1/2)
    ∧ lmCE.landmark 10 = some (1/2, 1/2)
    ∧ ((0 : ℚ) ≤ 1 ∧ (1 : ℚ) ≤ 1 ∧ (0 : ℚ) ≤ 1/2 ∧ (1/2 : ℚ) ≤ 1)
    ∧ FaceDetector.get_hair_region lmCE 100 100 =
        some ⟨96, 44, 4, 22, 98, 55⟩
    ∧ ((⟨96, 44, 4, 22, 98, 55⟩ : Region)).width < 10 := by
  refine ⟨rfl, rfl, rfl, rfl, by norm_num, ?_, by decide⟩
  rw [FaceDetector.get_hair_region, FaceDetector.get_forehead_region]
  norm_num [lmCE, pyInt, FaceDetector.LEFT_TEMPLE, FaceDetector.RIGHT_TEMPLE,
    FaceDetector.BROW_CENTER, FaceDetector.TOP_FOREHEAD]
  decide

/-- **C1 (amended)**: for every valid landmark set (used coordinates in
`[0,1]`) and every frame of size at least 4×6, the hair region returned by
`get_hair_region`, when non-null, is fully contained within
`[0,w)×[0,h)`, and its width is at least 4 and its height at least 6
(instead of the claimed minimum of 10 each, which the clamping to the
frame can violate). -/
theorem C1_hair_region_contained (lm : Landmarks) (w h : ℕ)
    (lt rt bc tf : ℚ × ℚ)
    (hlt : lm.landmark FaceDetector.LEFT_TEMPLE = some lt)
    (hrt : lm.landmark FaceDetector.RIGHT_TEMPLE = some rt)
    (hbc : lm.landmark FaceDetector.BROW_CENTER = some bc)
    (htf : lm.landmark FaceDetector.TOP_FOREHEAD = some tf)
    (hlt1 : 0 ≤ lt.1) (hlt2 : lt.1 ≤ 1)
    (_hrt1 : 0 ≤ rt.1) (_hrt2 : rt.1 ≤ 1)
    (_hbc1 : 0 ≤ bc.2) (_hbc2 : bc.2 ≤ 1)
    (htf1 : 0 ≤ tf.2) (htf2 : tf.2 ≤ 1)
    (hw : 4 ≤ w) (hh : 6 ≤ h) :
    ∀ r, FaceDetector.get_hair_region lm h w = some r →
      0 ≤ r.x ∧ 0 ≤ r.y ∧ r.x + r.width ≤ (w : ℤ) ∧ r.y + r.height ≤ (h : ℤ)
      ∧ 4 ≤ r.width ∧ 6 ≤ r.height := by
  intro r hr
  rw [FaceDetector.get_hair_region, FaceDetector.get_forehead_region,
    hlt, hrt, hbc, htf] at hr
  simp only [Option.some.injEq] at hr
  obtain ⟨hA0, hAw⟩ := pyInt_coord_bounds w hlt1 hlt2
  obtain ⟨hB0, hBh⟩ := pyInt_coord_bounds h htf1 htf2
  have hC0 : 0 ≤ pyInt (|tf.2 - bc.2| * h * (9/5)) := by
    refine pyInt_nonneg ?_
    positivity
  subst hr
  set A := pyInt (lt.1 * w) with hAdef
  set B := pyInt (tf.2 * h) with hBdef
  set C := pyInt (|tf.2 - bc.2| * h * (9/5)) with hCdef
  set D := pyInt (bc.2 * h) with hDdef
  set E := pyInt (rt.1 * w) with hEdef
  set F := max 10 (E - A) with hFdef
  set G := max 10 (D - max 0 (B - C)) with hGdef
  have hF10 : (10 : ℤ) ≤ F := le_max_left _ _
  have hG10 : (10 : ℤ) ≤ G := le_max_left _ _
  have hFq : (10 : ℚ) ≤ (F : ℚ) := by exact_mod_cast hF10
  have hGq : (10 : ℚ) ≤ (G : ℚ) := by exact_mod_cast hG10
  have hdx : (4 : ℤ) ≤ pyInt ((F : ℚ) * (2/5)) := by
    refine le_pyInt (by linarith) ?_
    push_cast
    linarith
  have hdy : (6 : ℤ) ≤ pyInt ((G : ℚ) * (3/5)) := by
    refine le_pyInt (by linarith) ?_
    push_cast
    linarith
  have hwAdd : (0 : ℤ) ≤ pyInt ((F : ℚ) * (4/5)) :=
    pyInt_nonneg (by linarith)
  have hhAdd : (0 : ℤ) ≤ pyInt ((G : ℚ) * (6/5)) :=
    pyInt_nonneg (by linarith)
  refine ⟨?_, ?_, ?_, ?_, ?_, ?_⟩ <;>
    simp only [] <;>
    omega

/-- Witness for `C1_hair_region_contained` at a concrete valid landmark
set on a 100×100 frame. -/
theorem C1_witness :
    0 ≤ ((⟨5, 0, 90, 100, 50, 50⟩ : Region)).x
    ∧ 0 ≤ ((⟨5, 0, 90, 100, 50, 50⟩ : Region)).y
    ∧ ((⟨5, 0, 90, 100, 50, 50⟩ : Region)).x
        + ((⟨5, 0, 90, 100, 50, 50⟩ : Region)).width ≤ ((100 : ℕ) : ℤ)
    ∧ ((⟨5, 0, 90, 100, 50, 50⟩ : Region)).y
        + ((⟨5, 0, 90, 100, 50, 50⟩ : Region)).height ≤ ((100 : ℕ) : ℤ)
    ∧ 4 ≤ ((⟨5, 0, 90, 100, 50, 50⟩ : Region)).width
    ∧ 6 ≤ ((⟨5, 0, 90, 100, 50, 50⟩ : Region)).height := by
  refine C1_hair_region_contained lmW 100 100 (1/4, 1/2) (3/4, 1/2)
    (1/2, 1/2) (1/2, 1/4) rfl rfl rfl rfl
    (by norm_num) (by norm_num) (by norm_num) (by norm_num)
    (by norm_num) (by norm_num) (by norm_num) (by norm_num)
    (by norm_num) (by norm_num) ⟨5, 0, 90, 100, 50, 50⟩ ?_
  rw [FaceDetector.get_hair_region, FaceDetector.get_forehead_region]
  norm_num [lmW, pyInt, abs_neg, abs_of_nonneg, FaceDetector.LEFT_TEMPLE,
    FaceDetector.RIGHT_TEMPLE, FaceDetector.BROW_CENTER,
    FaceDetector.TOP_FOREHEAD]
  decide

/-- **C5**: when the placement rectangle (origin
`(hairRegion.x + adjustments.x, hairRegion.y + adjustments.y)` with the
transformed bitmap's dimensions) has empty overlap with the frame — zero
overlap width or zero overlap height — `overlay_haircut` returns a frame
pixel-equal to the input frame. -/
theorem C5_composite_noop (env : Env) (hp : Heap) (frameRef : ℕ)
    (haircut : Img4) (hairRegion : Region) (adj : Adjustments)
    (hempty :
      min (((hp.mem3 frameRef).w : ℤ)) (hairRegion.x + adj.x + haircut.w)
          - max 0 (hairRegion.x + adj.x) ≤ 0
      ∨ min (((hp.mem3 frameRef).h : ℤ)) (hairRegion.y + adj.y + haircut.h)
          - max 0 (hairRegion.y + adj.y) ≤ 0) :
    (HairOverlay.overlay_haircut env hp frameRef haircut hairRegion adj).1.mem3
        (HairOverlay.overlay_haircut env hp frameRef haircut hairRegion adj).2
      = hp.mem3 frameRef := by
  have hcond : ¬(max 0 (-(hairRegion.x + adj.x)) <
        min ((haircut.w : ℤ))
          (((hp.mem3 frameRef).w : ℤ) - (hairRegion.x + adj.x))
      ∧ max 0 (-(hairRegion.y + adj.y)) <
        min ((haircut.h : ℤ))
          (((hp.mem3 frameRef).h : ℤ) - (hairRegion.y + adj.y))) := by
    omega
  simp only [HairOverlay.overlay_haircut, HairOverlay.overlayGeom]
  rw [if_neg hcond]
  simp [Heap.alloc3, Function.update_same]

/-- Witness for `C5_composite_noop`: a 100×100 bitmap placed at
`(1000, 1000)` misses the 2×2 frame entirely, so the result equals the
input frame. -/
theorem C5_witness :
    (HairOverlay.overlay_haircut envW heapW 0 hcCE hrOff adj1).1.mem3
        (HairOverlay.overlay_haircut envW heapW 0 hcCE hrOff adj1).2
      = heapW.mem3 0 :=
  C5_composite_noop envW heapW 0 hcCE hrOff adj1 (Or.inl (by decide))

/-- The pixel content written by `color_match_hair` inside the region,
when both mean tests pass. -/
lemma color_match_hair_pix (hp : Heap) (frameRef : ℕ)
    (originalRoi blendedRoi : ℕ → ℕ → Px3) (rows cols y0 x0 : ℕ)
    (h1 : 0 < mean3 originalRoi rows cols)
    (h2 : 0 < meanLuma blendedRoi rows cols) (i j : ℕ)
    (hi : i < rows) (hj : j < cols) :
    ((HairOverlay.color_match_hair hp frameRef originalRoi blendedRoi rows
        cols y0 x0).mem3 frameRef).pix (y0 + i) (x0 + j)
      = HairOverlay.colorAdjust
          (meanLuma (fun a b => HairOverlay.u8Px3 (originalRoi a b)) rows cols
            / meanLuma blendedRoi rows cols)
          (blendedRoi i j) := by
  simp only [HairOverlay.color_match_hair]
  rw [if_pos h1, if_pos h2]
  simp only [Heap.write3, Function.update_same, HairOverlay.writeRegion3]
  rw [if_pos (by omega : y0 ≤ y0 + i ∧ y0 + i < y0 + rows ∧ x0 ≤ x0 + j
    ∧ x0 + j < x0 + cols)]
  simp [Nat.add_sub_cancel_left]

/-- **C8**: in the compositor's color/luminance match step — reached when
the overlap is nonempty and the pre-blend background region has positive
mean — whenever the blended region's mean luma is positive, the
overlapping region of the output frame equals
`clip(blended * (backgroundLuma/blendedLuma) * 0.7 + blended * 0.3, 0,
255)` cast to `uint8`, where `backgroundLuma` is the mean luma of the
pre-blend background region and `blendedLuma` the mean luma of the
blended region. -/
theorem C8_color_match_region (env : Env) (hp : Heap) (frameRef : ℕ)
    (haircut : Img4) (hairRegion : Region) (adj : Adjustments)
    (g : HairOverlay.OverlayGeom) (rows cols : ℕ)
    (roi blended : ℕ → ℕ → Px3) (ratio : ℚ)
    (hg : g = HairOverlay.overlayGeom (hp.mem3 frameRef).h
      (hp.mem3 frameRef).w haircut hairRegion adj)
    (hrows : rows = HairOverlay.sliceRows g)
    (hcols : cols = HairOverlay.sliceCols g)
    (hroidef : roi = HairOverlay.overlayRoi (hp.mem3 frameRef) g)
    (hblend : blended = HairOverlay.overlayBlended env (hp.mem3 frameRef)
      haircut g)
    (hratio : ratio =
      meanLuma (fun a b => HairOverlay.u8Px3 (roi a b)) rows cols
        / meanLuma blended rows cols)
    (hov : g.hx1 < g.hx2 ∧ g.hy1 < g.hy2)
    (hroi : 0 < mean3 roi rows cols)
    (hlum : 0 < meanLuma blended rows cols) :
    ∀ i j, i < rows → j < cols →
      ((HairOverlay.overlay_haircut env hp frameRef haircut hairRegion
          adj).1.mem3
        (HairOverlay.overlay_haircut env hp frameRef haircut hairRegion
          adj).2).pix (g.y1.toNat + i) (g.x1.toNat + j)
        = HairOverlay.colorAdjust ratio (blended i j) := by
  intro i j hi hj
  subst hg hrows hcols hroidef hblend hratio
  simp only [HairOverlay.overlay_haircut]
  rw [if_pos hov, if_pos hroi]
  exact color_match_hair_pix _ _ _ _ _ _ _ _ hroi hlum i j hi hj

/-- Witness for `C8_color_match_region`: a 1×1 opaque haircut blended onto
a gray 2×2 frame at the origin; the written pixel is the luma-ratio
adjustment of the blended pixel. -/
theorem C8_witness :
    ((HairOverlay.overlay_haircut envW heapW 0 hc1 hrZero adj1).1.mem3
      (HairOverlay.overlay_haircut envW heapW 0 hc1 hrZero adj1).2).pix
        (G8.y1.toNat + 0) (G8.x1.toNat + 0)
      = HairOverlay.colorAdjust ratio8 (blend8 0 0) := by
  have hr1 : HairOverlay.sliceRows G8 = 1 := by decide
  have hcl1 : HairOverlay.sliceCols G8 = 1 := by decide
  refine C8_color_match_region envW heapW 0 hc1 hrZero adj1 G8
    (HairOverlay.sliceRows G8) (HairOverlay.sliceCols G8) roi8 blend8 ratio8
    rfl rfl rfl rfl rfl rfl (by decide) ?_ ?_ 0 0 (by decide) (by decide)
  · rw [hr1, hcl1]
    norm_num [mean3, rsum2, rsum, roi8, HairOverlay.overlayRoi, G8, heapW,
      frame2]
  · rw [hr1, hcl1]
    norm_num [meanLuma, rsum2, rsum, blend8, HairOverlay.overlayBlended,
      HairOverlay.overlayAlpha, HairOverlay.overlayRoi, G8, heapW, frame2,
      hc1, envW, lumaPx, u8q, pyInt]

/-- `load_haircut` never touches any 3-channel array (it only allocates
4-channel ones). -/
lemma load_haircut_mem3 (env : Env) (st : PState) (path gender : String) :
    (load_haircut env st path gender).1.heap.mem3 = st.heap.mem3 := by
  unfold load_haircut
  rcases hpe : env.pathExists path <;>
    rcases hc : st.cache (cacheKey gender path) <;>
    rcases hr : env.imread path <;>
    simp [hc, hr, Heap.alloc4]

/-- `load_haircut` only grows the heap. -/
lemma load_haircut_next_le (env : Env) (st : PState) (path gender : String) :
    st.heap.next ≤ (load_haircut env st path gender).1.heap.next := by
  unfold load_haircut
  rcases hpe : env.pathExists path <;>
    rcases hc : st.cache (cacheKey gender path) <;>
    rcases hr : env.imread path <;>
    simp [hc, hr, Heap.alloc4] <;>
    omega

/-- **C6**: two `load_haircut` calls with identical arguments — the first
a cache miss, the second a hit — return arrays with identical pixel
content, and the two returned arrays and the cached entry are three
pairwise-distinct objects: writing into either returned array changes
neither the other returned array nor the cached entry. -/
theorem C6_cache_roundtrip (env : Env) (st : PState) (path gender : String)
    (raw : RawImage)
    (hpath : env.pathExists path = true)
    (hmiss : st.cache (cacheKey gender path) = none)
    (hraw : env.imread path = some raw) :
    (load_haircut env st path gender).2 = some st.heap.next
    ∧ (load_haircut env st path gender).1.cache (cacheKey gender path)
        = some (st.heap.next + 1)
    ∧ (load_haircut env (load_haircut env st path gender).1 path gender).2
        = some (st.heap.next + 2)
    ∧ (let st2 :=
        (load_haircut env (load_haircut env st path gender).1 path gender).1
       st2.heap.mem4 st.heap.next = st2.heap.mem4 (st.heap.next + 2)
       ∧ ∀ img : Img4,
          (st2.heap.write4 st.heap.next img).mem4 (st.heap.next + 2)
            = st2.heap.mem4 (st.heap.next + 2)
          ∧ (st2.heap.write4 st.heap.next img).mem4 (st.heap.next + 1)
            = st2.heap.mem4 (st.heap.next + 1)
          ∧ (st2.heap.write4 (st.heap.next + 2) img).mem4 st.heap.next
            = st2.heap.mem4 st.heap.next
          ∧ (st2.heap.write4 (st.heap.next + 2) img).mem4 (st.heap.next + 1)
            = st2.heap.mem4 (st.heap.next + 1)) := by
  have h1 : load_haircut env st path gender =
      (⟨⟨st.heap.next + 2, st.heap.mem3,
          Function.update
            (Function.update st.heap.mem4 st.heap.next
              (preprocess_haircut env (toBGRA raw)))
            (st.heap.next + 1) (preprocess_haircut env (toBGRA raw))⟩,
        Function.update st.cache (cacheKey gender path)
          (some (st.heap.next + 1))⟩,
       some st.heap.next) := by
    unfold load_haircut
    rw [if_pos hpath]
    simp only [hmiss, hraw, Heap.alloc4]
  have h2 : load_haircut env (load_haircut env st path gender).1 path gender
      = (⟨⟨st.heap.next + 3, st.heap.mem3,
          Function.update
            (Function.update
              (Function.update st.heap.mem4 st.heap.next
                (preprocess_haircut env (toBGRA raw)))
              (st.heap.next + 1) (preprocess_haircut env (toBGRA raw)))
            (st.heap.next + 2) (preprocess_haircut env (toBGRA raw))⟩,
        Function.update st.cache (cacheKey gender path)
          (some (st.heap.next + 1))⟩,
       some (st.heap.next + 2)) := by
    rw [h1]
    unfold load_haircut
    rw [if_pos hpath]
    simp only [Function.update_same, Heap.alloc4]
  refine ⟨by rw [h1], by rw [h1]; exact Function.update_same _ _ _,
    by rw [h2], ?_, ?_⟩
  · rw [h2]
    show Function.update _ (st.heap.next + 2) _ st.heap.next
        = Function.update _ (st.heap.next + 2) _ (st.heap.next + 2)
    rw [Function.update_noteq (by omega : st.heap.next ≠ st.heap.next + 2),
      Function.update_noteq (by omega : st.heap.next ≠ st.heap.next + 1),
      Function.update_same, Function.update_same]
  · intro img
    rw [h2]
    refine ⟨?_, ?_, ?_, ?_⟩ <;> dsimp only [Heap.write4]
    · rw [Function.update_noteq
        (by omega : st.heap.next + 2 ≠ st.heap.next)]
    · rw [Function.update_noteq
        (by omega : st.heap.next + 1 ≠ st.heap.next)]
    · rw [Function.update_noteq
        (by omega : st.heap.next ≠ st.heap.next + 2)]
    · rw [Function.update_noteq
        (by omega : st.heap.next + 1 ≠ st.heap.next + 2)]

/-- Witness for `C6_cache_roundtrip`: loading `"x"` twice for gender
`"g"` in a filesystem where every path holds `rawW`. -/
theorem C6_witness :
    (load_haircut envL stEmpty "x" "g").2 = some 1
    ∧ (load_haircut envL stEmpty "x" "g").1.cache (cacheKey "g" "x")
        = some 2
    ∧ (load_haircut envL (load_haircut envL stEmpty "x" "g").1 "x" "g").2
        = some 3
    ∧ (let st2 :=
        (load_haircut envL (load_haircut envL stEmpty "x" "g").1 "x" "g").1
       st2.heap.mem4 1 = st2.heap.mem4 3
       ∧ ∀ img : Img4,
          (st2.heap.write4 1 img).mem4 3 = st2.heap.mem4 3
          ∧ (st2.heap.write4 1 img).mem4 2 = st2.heap.mem4 2
          ∧ (st2.heap.write4 3 img).mem4 1 = st2.heap.mem4 1
          ∧ (st2.heap.write4 3 img).mem4 2 = st2.heap.mem4 2) :=
  C6_cache_roundtrip envL stEmpty "x" "g" rawW rfl rfl rfl

/-- The four possible outcomes of one `load_haircut` call, with the
resulting state spelled out. -/
lemma load_haircut_cases (env : Env) (st : PState) (path gender : String) :
    (env.pathExists path = false
      ∧ load_haircut env st path gender = (st, none))
    ∨ (env.pathExists path = true ∧ env.imread path = none
      ∧ st.cache (cacheKey gender path) = none
      ∧ load_haircut env st path gender = (st, none))
    ∨ (∃ r0, env.pathExists path = true
      ∧ st.cache (cacheKey gender path) = some r0
      ∧ load_haircut env st path gender =
        (⟨⟨st.heap.next + 1, st.heap.mem3,
            Function.update st.heap.mem4 st.heap.next (st.heap.mem4 r0)⟩,
          st.cache⟩, some st.heap.next))
    ∨ (∃ raw, env.pathExists path = true
      ∧ st.cache (cacheKey gender path) = none
      ∧ env.imread path = some raw
      ∧ load_haircut env st path gender =
        (⟨⟨st.heap.next + 2, st.heap.mem3,
            Function.update
              (Function.update st.heap.mem4 st.heap.next
                (preprocess_haircut env (toBGRA raw)))
              (st.heap.next + 1) (preprocess_haircut env (toBGRA raw))⟩,
          Function.update st.cache (cacheKey gender path)
            (some (st.heap.next + 1))⟩, some st.heap.next)) := by
  unfold load_haircut
  rcases hpe : env.pathExists path <;>
    rcases hc : st.cache (cacheKey gender path) with _ | r0 <;>
    rcases hr : env.imread path with _ | raw
  · exact Or.inl ⟨rfl, by simp⟩
  · exact Or.inl ⟨rfl, by simp⟩
  · exact Or.inl ⟨rfl, by simp⟩
  · exact Or.inl ⟨rfl, by simp⟩
  · exact Or.inr (Or.inl ⟨rfl, rfl, rfl, by simp [hc, hr]⟩)
  · exact Or.inr (Or.inr (Or.inr ⟨raw, rfl, rfl, rfl,
      by simp [hc, hr, Heap.alloc4]⟩))
  · exact Or.inr (Or.inr (Or.inl ⟨r0, rfl, rfl,
      by simp [hc, Heap.alloc4]⟩))
  · exact Or.inr (Or.inr (Or.inl ⟨r0, rfl, rfl,
      by simp [hc, Heap.alloc4]⟩))

/-- One `load_haircut` call preserves the cache invariant. -/
lemma load_haircut_cacheWF (env : Env) (st : PState) (path gender : String)
    (h : cacheWF env st) : cacheWF env (load_haircut env st path gender).1 := by
  rcases load_haircut_cases env st path gender with
    ⟨_, heq⟩ | ⟨_, _, _, heq⟩ | ⟨r0, hpe, hc, heq⟩ | ⟨raw, hpe, hc, hr, heq⟩
  · rw [heq]; exact h
  · rw [heq]; exact h
  · rw [heq]
    intro k r hk
    dsimp only at hk ⊢
    obtain ⟨hlt, p, rw0, hp, hrw, hmem⟩ := h k r hk
    refine ⟨by omega, p, rw0, hp, hrw, ?_⟩
    rw [Function.update_noteq (by omega : r ≠ st.heap.next)]
    exact hmem
  · rw [heq]
    intro k r hk
    dsimp only at hk ⊢
    by_cases hkk : k = cacheKey gender path
    · subst hkk
      rw [Function.update_same] at hk
      injection hk with hk
      subst hk
      refine ⟨by omega, path, raw, hpe, hr, ?_⟩
      rw [Function.update_same]
    · rw [Function.update_noteq hkk] at hk
      obtain ⟨hlt, p, rw0, hp, hrw, hmem⟩ := h k r hk
      refine ⟨by omega, p, rw0, hp, hrw, ?_⟩
      rw [Function.update_noteq (by omega : r ≠ st.heap.next + 1),
        Function.update_noteq (by omega : r ≠ st.heap.next)]
      exact hmem

/-- **C7**: starting from an empty cache, after every sequence of
`load_haircut` operations each cache entry holds `preprocess_haircut`
applied exactly once (at insertion time) to the decoded image of a
successfully loaded path; and a cache hit returns the stored content
verbatim — cache unchanged, fresh copy of the cached array, no further
preprocessing. -/
theorem C7_preprocess_once (env : Env) (heap0 : Heap)
    (ops : List (String × String)) :
    cacheWF env (runLoads env ⟨heap0, fun _ => none⟩ ops)
    ∧ (∀ st : PState, ∀ path gender r,
        env.pathExists path = true →
        st.cache (cacheKey gender path) = some r →
        (load_haircut env st path gender).1.cache = st.cache
        ∧ (load_haircut env st path gender).2 = some st.heap.next
        ∧ (load_haircut env st path gender).1.heap.mem4 st.heap.next
            = st.heap.mem4 r) := by
  constructor
  · have hbase : cacheWF env ⟨heap0, fun _ => none⟩ := by
      intro k r hk
      exact Option.noConfusion hk
    have hstep : ∀ ops' st, cacheWF env st →
        cacheWF env (runLoads env st ops') := by
      intro ops'
      induction ops' with
      | nil => intro st h; exact h
      | cons op rest ih =>
        intro st h
        exact ih _ (load_haircut_cacheWF env st op.1 op.2 h)
    exact hstep ops _ hbase
  · intro st path gender r hpe hc
    rcases load_haircut_cases env st path gender with
      ⟨hf, _⟩ | ⟨_, _, hnone, _⟩ | ⟨r0, _, hc0, heq⟩ | ⟨raw, _, hc0, _, _⟩
    · rw [hpe] at hf
      exact Bool.noConfusion hf
    · rw [hc] at hnone
      exact Option.noConfusion hnone
    · rw [hc] at hc0
      injection hc0 with h0
      subst h0
      rw [heq]
      exact ⟨rfl, rfl, Function.update_same _ _ _⟩
    · rw [hc] at hc0
      exact Option.noConfusion hc0

/-- Witness for `C7_preprocess_once`: the invariant instantiated at the
entry created by loading `"x"`/`"g"` once, and the hit clause at a state
whose cache maps every key to reference 0. -/
theorem C7_witness :
    (2 < (runLoads envL stEmpty [("x", "g")]).heap.next
      ∧ ∃ path raw, envL.pathExists path = true
          ∧ envL.imread path = some raw
          ∧ (runLoads envL stEmpty [("x", "g")]).heap.mem4 2
              = preprocess_haircut envL (toBGRA raw))
    ∧ ((load_haircut envL stHit "x" "g").1.cache = stHit.cache
      ∧ (load_haircut envL stHit "x" "g").2 = some 1
      ∧ (load_haircut envL stHit "x" "g").1.heap.mem4 1
          = stHit.heap.mem4 0) := by
  have h := C7_preprocess_once envL heapW [("x", "g")]
  refine ⟨h.1 (cacheKey "g" "x") 2 ?_, h.2 stHit "x" "g" 0 rfl rfl⟩
  show (load_haircut envL stEmpty "x" "g").1.cache (cacheKey "g" "x")
    = some 2
  unfold load_haircut
  simp [envL, envW, stEmpty, heapW, Heap.alloc4, Function.update_same]

/-- **C2**: once the pipeline reaches detection (asset path resolved, load
succeeded), a frame in which the detector finds no landmarks is returned
unchanged — same array, untouched content — with `face_detected = False`;
and when landmarks are found but the hair region is null, the frame is
returned unchanged with `face_detected = True`. -/
theorem C2_no_face_passthrough (env : Env) (st : PState)
    (sessions : String → Option Adjustments) (frameRef : ℕ)
    (haircutName gender : String) (sessionId : Option String)
    (path : String) (hcRef : ℕ)
    (hres : resolvePath env haircutName gender = some path)
    (hload : (load_haircut env st path gender).2 = some hcRef) :
    (env.detect ((load_haircut env st path gender).1.heap.mem3 frameRef)
        = none →
      apply_haircut env st sessions frameRef haircutName gender sessionId
        = ((load_haircut env st path gender).1, frameRef, false,
          resolveTrace env haircutName gender
            ++ [Event.loadAsset path, Event.detectFace])
      ∧ (load_haircut env st path gender).1.heap.mem3 frameRef
          = st.heap.mem3 frameRef)
    ∧ (∀ lm,
      env.detect ((load_haircut env st path gender).1.heap.mem3 frameRef)
          = some lm →
      FaceDetector.get_hair_region lm
          ((load_haircut env st path gender).1.heap.mem3 frameRef).h
          ((load_haircut env st path gender).1.heap.mem3 frameRef).w
        = none →
      apply_haircut env st sessions frameRef haircutName gender sessionId
        = ((load_haircut env st path gender).1, frameRef, true,
          resolveTrace env haircutName gender
            ++ [Event.loadAsset path, Event.detectFace, Event.headPoseEv,
                Event.hairRegionEv])
      ∧ (load_haircut env st path gender).1.heap.mem3 frameRef
          = st.heap.mem3 frameRef) := by
  constructor
  · intro hdet
    refine ⟨?_, congrFun (load_haircut_mem3 env st path gender) frameRef⟩
    unfold apply_haircut
    rw [hres]
    unfold apply_rest
    simp [hload, hdet]
  · intro lm hdet hhr
    refine ⟨?_, congrFun (load_haircut_mem3 env st path gender) frameRef⟩
    unfold apply_haircut
    rw [hres]
    unfold apply_rest
    simp [hload, hdet, hhr]

/-- Witness for `C2_no_face_passthrough`: both scenarios — detector finds
nothing; detector finds landmarks whose hair region is null. -/
theorem C2_witness :
    (apply_haircut envD stEmpty (fun _ => none) 0 "x" "g" none
        = ((load_haircut envD stEmpty pathW "g").1, 0, false,
          resolveTrace envD "x" "g"
            ++ [Event.loadAsset pathW, Event.detectFace])
      ∧ (load_haircut envD stEmpty pathW "g").1.heap.mem3 0
          = stEmpty.heap.mem3 0)
    ∧ (apply_haircut envDB stEmpty (fun _ => none) 0 "x" "g" none
        = ((load_haircut envDB stEmpty pathW "g").1, 0, true,
          resolveTrace envDB "x" "g"
            ++ [Event.loadAsset pathW, Event.detectFace, Event.headPoseEv,
                Event.hairRegionEv])
      ∧ (load_haircut envDB stEmpty pathW "g").1.heap.mem3 0
          = stEmpty.heap.mem3 0) := by
  have hload1 : (load_haircut envD stEmpty pathW "g").2 = some 1 := by
    unfold load_haircut
    simp [envD, envL, envW, stEmpty, heapW, Heap.alloc4]
  have hload2 : (load_haircut envDB stEmpty pathW "g").2 = some 1 := by
    unfold load_haircut
    simp [envDB, envL, envW, stEmpty, heapW, Heap.alloc4]
  exact ⟨(C2_no_face_passthrough envD stEmpty (fun _ => none) 0 "x" "g"
      none pathW 1 rfl hload1).1 rfl,
    (C2_no_face_passthrough envDB stEmpty (fun _ => none) 0 "x" "g"
      none pathW 1 rfl hload2).2 lmBad rfl rfl⟩

/-- The resolution probes never include a detector call. -/
lemma detect_not_mem_resolveTrace (env : Env) (name gender : String) :
    Event.detectFace ∉ resolveTrace env name gender := by
  unfold resolveTrace
  dsimp only
  repeat' split
  all_goals simp

/-- **C10**: when the asset is in none of the three fallback locations
(declared category, `custom` category, basename inside `custom`),
`apply_haircut` returns the original frame object and state with
`face_detected = False`, having performed only the three path probes — the
detector is never invoked; and in every run of the pipeline, any detector
call in the trace comes strictly after the asset-load step. -/
theorem C10_missing_asset (env : Env) (st : PState)
    (sessions : String → Option Adjustments) (frameRef : ℕ)
    (haircutName gender : String) (sessionId : Option String)
    (h1 : env.pathExists
      ("app/static/haircuts/" ++ gender ++ "/" ++ haircutName) = false)
    (h2 : env.pathExists
      ("app/static/haircuts/custom/" ++ haircutName) = false)
    (h3 : env.pathExists
      ("app/static/haircuts/custom/" ++ pyBasename haircutName) = false) :
    apply_haircut env st sessions frameRef haircutName gender sessionId
      = (st, frameRef, false,
        [Event.pathCheck
          ("app/static/haircuts/" ++ gender ++ "/" ++ haircutName),
         Event.pathCheck ("app/static/haircuts/custom/" ++ haircutName),
         Event.pathCheck
          ("app/static/haircuts/custom/" ++ pyBasename haircutName)])
    ∧ Event.detectFace ∉
        (apply_haircut env st sessions frameRef haircutName gender
          sessionId).2.2.2
    ∧ (∀ (env' : Env) (st' : PState)
        (sessions' : String → Option Adjustments) (frameRef' : ℕ)
        (haircutName' gender' : String) (sessionId' : Option String),
      Event.detectFace ∈
        (apply_haircut env' st' sessions' frameRef' haircutName' gender'
          sessionId').2.2.2 →
      ∃ p pre post,
        (apply_haircut env' st' sessions' frameRef' haircutName' gender'
          sessionId').2.2.2 = pre ++ Event.loadAsset p :: post
        ∧ Event.detectFace ∉ pre) := by
  have hres : resolvePath env haircutName gender = none := by
    unfold resolvePath
    simp [h1, h2, h3]
  have htr : resolveTrace env haircutName gender =
      [Event.pathCheck
        ("app/static/haircuts/" ++ gender ++ "/" ++ haircutName),
       Event.pathCheck ("app/static/haircuts/custom/" ++ haircutName),
       Event.pathCheck
        ("app/static/haircuts/custom/" ++ pyBasename haircutName)] := by
    unfold resolveTrace
    simp [h1, h2]
  have hmain : apply_haircut env st sessions frameRef haircutName gender
      sessionId = (st, frameRef, false,
        [Event.pathCheck
          ("app/static/haircuts/" ++ gender ++ "/" ++ haircutName),
         Event.pathCheck ("app/static/haircuts/custom/" ++ haircutName),
         Event.pathCheck
          ("app/static/haircuts/custom/" ++ pyBasename haircutName)]) := by
    unfold apply_haircut
    rw [hres, htr]
  refine ⟨hmain, by rw [hmain]; simp, ?_⟩
  intro env' st' sessions' frameRef' haircutName' gender' sessionId' hmem
  unfold apply_haircut at hmem ⊢
  rcases hre : resolvePath env' haircutName' gender' with _ | p <;>
    rw [hre] at hmem
  · exact absurd hmem (detect_not_mem_resolveTrace env' haircutName' gender')
  · rcases hld : (load_haircut env' st' p gender').2 with _ | hcRef
    · exact ⟨p, resolveTrace env' haircutName' gender', [],
        by unfold apply_rest; simp [hld],
        detect_not_mem_resolveTrace env' haircutName' gender'⟩
    · rcases hdet : env'.detect
        ((load_haircut env' st' p gender').1.heap.mem3 frameRef') with _ | lm
      · exact ⟨p, resolveTrace env' haircutName' gender', [Event.detectFace],
          by unfold apply_rest; simp [hld, hdet],
          detect_not_mem_resolveTrace env' haircutName' gender'⟩
      · rcases hhr : FaceDetector.get_hair_region lm
          ((load_haircut env' st' p gender').1.heap.mem3 frameRef').h
          ((load_haircut env' st' p gender').1.heap.mem3 frameRef').w with
          _ | hr
        · exact ⟨p, resolveTrace env' haircutName' gender',
            [Event.detectFace, Event.headPoseEv, Event.hairRegionEv],
            by unfold apply_rest; simp [hld, hdet, hhr],
            detect_not_mem_resolveTrace env' haircutName' gender'⟩
        · exact ⟨p, resolveTrace env' haircutName' gender',
            [Event.detectFace, Event.headPoseEv, Event.hairRegionEv,
             Event.transformEv, Event.overlayEv],
            by unfold apply_rest; simp [hld, hdet, hhr],
            detect_not_mem_resolveTrace env' haircutName' gender'⟩

/-- Witness for `C10_missing_asset`: an environment with no files at all. -/
theorem C10_witness :
    apply_haircut envW stEmpty (fun _ => none) 0 "x" "g" none
      = (stEmpty, 0, false,
        [Event.pathCheck ("app/static/haircuts/" ++ "g" ++ "/" ++ "x"),
         Event.pathCheck ("app/static/haircuts/custom/" ++ "x"),
         Event.pathCheck ("app/static/haircuts/custom/" ++ pyBasename "x")])
    ∧ Event.detectFace ∉
        (apply_haircut envW stEmpty (fun _ => none) 0 "x" "g" none).2.2.2
    ∧ (∀ (env' : Env) (st' : PState)
        (sessions' : String → Option Adjustments) (frameRef' : ℕ)
        (haircutName' gender' : String) (sessionId' : Option String),
      Event.detectFace ∈
        (apply_haircut env' st' sessions' frameRef' haircutName' gender'
          sessionId').2.2.2 →
      ∃ p pre post,
        (apply_haircut env' st' sessions' frameRef' haircutName' gender'
          sessionId').2.2.2 = pre ++ Event.loadAsset p :: post
        ∧ Event.detectFace ∉ pre) :=
  C10_missing_asset envW stEmpty (fun _ => none) 0 "x" "g" none rfl rfl rfl

/-- `color_match_hair` writes only into its target array. -/
lemma color_match_hair_mem3_ne (hp : Heap) (tgt : ℕ)
    (originalRoi blendedRoi : ℕ → ℕ → Px3) (rows cols y0 x0 : ℕ) {r : ℕ}
    (h : r ≠ tgt) :
    (HairOverlay.color_match_hair hp tgt originalRoi blendedRoi rows cols
      y0 x0).mem3 r = hp.mem3 r := by
  unfold HairOverlay.color_match_hair
  dsimp only
  split_ifs <;> simp [Heap.write3, Function.update_noteq h]

/-- `overlay_haircut` returns the reference of the fresh copy. -/
lemma overlay_haircut_ref (env : Env) (hp : Heap) (frameRef : ℕ)
    (haircut : Img4) (hairRegion : Region) (adj : Adjustments) :
    (HairOverlay.overlay_haircut env hp frameRef haircut hairRegion adj).2
      = hp.next := by
  unfold HairOverlay.overlay_haircut
  dsimp only
  split_ifs <;> rfl

/-- `overlay_haircut` leaves the content of every pre-existing 3-channel
array unchanged: all its writes go to the fresh copy. -/
lemma overlay_haircut_mem3_pres (env : Env) (hp : Heap) (frameRef : ℕ)
    (haircut : Img4) (hairRegion : Region) (adj : Adjustments) {r : ℕ}
    (h : r < hp.next) :
    (HairOverlay.overlay_haircut env hp frameRef haircut hairRegion
      adj).1.mem3 r = hp.mem3 r := by
  have hne : r ≠ hp.next := by omega
  unfold HairOverlay.overlay_haircut
  dsimp only [Heap.alloc3]
  split_ifs
  · rw [color_match_hair_mem3_ne _ _ _ _ _ _ _ _ hne]
    simp [Heap.write3, Heap.alloc3, Function.update_noteq hne]
  · simp [Heap.write3, Heap.alloc3, Function.update_noteq hne]
  · simp [Heap.alloc3, Function.update_noteq hne]

/-- **C9**: neither `overlay_haircut` nor the whole `apply_haircut`
pipeline mutates the caller's frame array: blending and color matching
are performed on a fresh copy (which is also the returned object), so the
input array holds its original pixel content afterwards. -/
theorem C9_input_frame_unchanged :
    (∀ (env : Env) (hp : Heap) (frameRef : ℕ) (haircut : Img4)
        (hairRegion : Region) (adj : Adjustments),
      frameRef < hp.next →
      (HairOverlay.overlay_haircut env hp frameRef haircut hairRegion
          adj).1.mem3 frameRef = hp.mem3 frameRef
      ∧ (HairOverlay.overlay_haircut env hp frameRef haircut hairRegion
          adj).2 ≠ frameRef)
    ∧ (∀ (env : Env) (st : PState)
        (sessions : String → Option Adjustments) (frameRef : ℕ)
        (haircutName gender : String) (sessionId : Option String),
      frameRef < st.heap.next →
      (apply_haircut env st sessions frameRef haircutName gender
          sessionId).1.heap.mem3 frameRef = st.heap.mem3 frameRef) := by
  constructor
  · intro env hp frameRef haircut hairRegion adj h
    refine ⟨overlay_haircut_mem3_pres env hp frameRef haircut hairRegion
      adj h, ?_⟩
    rw [overlay_haircut_ref]
    omega
  · intro env st sessions frameRef haircutName gender sessionId h
    unfold apply_haircut
    rcases hre : resolvePath env haircutName gender with _ | p
    · rfl
    · dsimp only
      unfold apply_rest
      dsimp only
      rcases hld : (load_haircut env st p gender).2 with _ | hcRef
      · exact congrFun (load_haircut_mem3 env st p gender) frameRef
      · dsimp only
        rcases hdet : env.detect
          ((load_haircut env st p gender).1.heap.mem3 frameRef) with _ | lm
        · exact congrFun (load_haircut_mem3 env st p gender) frameRef
        · dsimp only
          rcases hhr : FaceDetector.get_hair_region lm
            ((load_haircut env st p gender).1.heap.mem3 frameRef).h
            ((load_haircut env st p gender).1.heap.mem3 frameRef).w with
            _ | hr
          · exact congrFun (load_haircut_mem3 env st p gender) frameRef
          · have hlt :
                frameRef < (load_haircut env st p gender).1.heap.next :=
              lt_of_lt_of_le h (load_haircut_next_le env st p gender)
            exact (overlay_haircut_mem3_pres env _ frameRef _ hr
                (sessionAdjustments sessions sessionId) hlt).trans
              (congrFun (load_haircut_mem3 env st p gender) frameRef)

/-- Witness for `C9_input_frame_unchanged`: the compositor and the whole
pipeline leave frame 0 of a one-frame heap intact. -/
theorem C9_witness :
    ((HairOverlay.overlay_haircut envW heapW 0 hc1 hrZero adj1).1.mem3 0
        = heapW.mem3 0
      ∧ (HairOverlay.overlay_haircut envW heapW 0 hc1 hrZero adj1).2 ≠ 0)
    ∧ (apply_haircut envW stEmpty (fun _ => none) 0 "x" "g" none).1.heap.mem3
        0 = stEmpty.heap.mem3 0 :=
  ⟨C9_input_frame_unchanged.1 envW heapW 0 hc1 hrZero adj1 (by decide),
   C9_input_frame_unchanged.2 envW stEmpty (fun _ => none) 0 "x" "g" none
     (by decide)⟩
